import Mathlib

/-!
# Verification of the Aleph.js dev server request dispatcher

A shallow embedding of `src/server/server.ts` (`Server.handle` and the
`/_hmr` websocket session it spawns).  External collaborators that live in
the repository but outside the sampled source (`Application`, `util`,
`mime`, `framework/core/module`) are modelled as function-valued fields of
an `App` record or as standalone definitions whose doc comments say what
they model.  Machine-level concerns (websocket framing, byte arrays) are
modelled at the granularity the dispatcher observes: compiled byte arrays
as strings, JSON frames at the parsed level.
-/

namespace Aleph

/-! ## String utilities (models of `shared/util.ts` helpers)

String tests and slicing are defined over the character data so that every
definition evaluates by structural recursion. -/

/-- Test that `s` starts with `p` (character-level `String.startsWith`). -/
def strStartsWith (s p : String) : Bool :=
  p.data.isPrefixOf s.data

/-- Test that `s` ends with `p` (character-level `String.endsWith`). -/
def strEndsWith (s p : String) : Bool :=
  p.data.reverse.isPrefixOf s.data.reverse

/-- Drop the first `n` characters of `s` (character-level `String.drop`). -/
def strDrop (s : String) (n : Nat) : String :=
  ⟨s.data.drop n⟩

/-- Drop the last `n` characters of `s` (character-level
`String.dropRight`). -/
def strDropRight (s : String) (n : Nat) : String :=
  ⟨s.data.take (s.data.length - n)⟩

/-- Join strings with a separator (character-level
`String.intercalate`). -/
def joinSep (sep : String) : List String → String
  | [] => ""
  | [x] => x
  | x :: y :: rest => x ++ sep ++ joinSep sep (y :: rest)

/-- Split a character list on a separator character (the character-level
core of `String.splitOn` for a one-character separator). -/
def splitOnCharAux (c : Char) : List Char → List (List Char)
  | [] => [[]]
  | x :: xs =>
    let r := splitOnCharAux c xs
    if x = c then [] :: r
    else
      match r with
      | [] => [[x]]
      | h :: t => (x :: h) :: t

/-- Split a string on a separator character. -/
def splitOnChar (c : Char) (s : String) : List String :=
  (splitOnCharAux c s.data).map (fun l => ⟨l⟩)

/-- Models `util.trimPrefix`: drop `p` from the front of `s` when `s`
starts with `p`, otherwise return `s` unchanged. -/
def trimPrefixStr (s p : String) : String :=
  if strStartsWith s p then strDrop s p.data.length else s

/-- Models `util.trimSuffix`: drop `p` from the end of `s` when `s` ends
with `p`, otherwise return `s` unchanged. -/
def trimSuffixStr (s p : String) : String :=
  if strEndsWith s p then strDropRight s p.data.length else s

/-- Models `std/path.join` for the call shapes the dispatcher uses: glue
two segments with a single separator (a leading separator on the second
segment is not doubled). -/
def pathJoin (a b : String) : String :=
  if strStartsWith b "/" then a ++ b else a ++ "/" ++ b

/-- The hexadecimal digit for `n % 16`. -/
def hexDigit (n : Nat) : Char :=
  "0123456789abcdef".toList.getD (n % 16) '0'

/-- One character of `JSON.stringify` string encoding. -/
def jsonEscapeChar (c : Char) : String :=
  if c = '"' then "\\\""
  else if c = '\\' then "\\\\"
  else if c = '\n' then "\\n"
  else if c = '\r' then "\\r"
  else if c = '\t' then "\\t"
  else if c.toNat = 8 then "\\b"
  else if c.toNat = 12 then "\\f"
  else if c.toNat < 32 then
    "\\u00" ++ String.singleton (hexDigit (c.toNat / 16)) ++ String.singleton (hexDigit c.toNat)
  else String.singleton c

/-- Models `JSON.stringify` applied to a string: a double-quoted,
escaped string literal. -/
def jsonString (s : String) : String :=
  "\"" ++ String.join (s.data.map jsonEscapeChar) ++ "\""

/-- The extension of a path: the part after the last dot, or `""` when
the path has no dot. -/
def fileExt (path : String) : String :=
  match (splitOnChar '.' path).reverse with
  | [] => ""
  | e :: rest => if rest.isEmpty then "" else e

/-! ## Module extension handling (`framework/core/module.ts`) -/

/-- Modelled from the spec: the recognized source-module extensions of the
framework (`builtinModuleExts` from `framework/core/module.ts`, which is
outside the sampled source), listed in the fixed priority order the probe
loop uses. -/
def builtinModuleExts : List String := ["tsx", "jsx", "ts", "js", "mjs"]

/-- Helper for `trimBuiltinModuleExts`: trim the first matching `.ext`
from the candidate list. -/
def trimExtsAux (s : String) : List String → String
  | [] => s
  | e :: rest =>
    if strEndsWith s ("." ++ e) then strDropRight s ("." ++ e).data.length
    else trimExtsAux s rest

/-- Modelled from the spec: `trimBuiltinModuleExts` (from
`framework/core/module.ts`) removes a recognized module extension from the
end of a specifier, leaving other specifiers unchanged. -/
def trimBuiltinModuleExts (s : String) : String :=
  trimExtsAux s builtinModuleExts

/-- Helper for `cleanPath`: keep non-empty, non-`.` segments, resolving
`..` against the accumulator. -/
def cleanSegments : List String → List String → List String
  | [], acc => acc
  | s :: rest, acc =>
    if s = ".." then cleanSegments rest acc.dropLast
    else if s = "" ∨ s = "." then cleanSegments rest acc
    else cleanSegments rest (acc ++ [s])

/-- Modelled from the spec: `util.cleanPath` normalizes a path — collapses
duplicate slashes, resolves `.` and `..`, and yields a single leading
slash. -/
def cleanPath (path : String) : String :=
  "/" ++ joinSep "/" (cleanSegments (splitOnChar '/' path) [])

/-! ## Data model -/

/-- A thrown JS error as the dispatcher observes it: a message and a
stack trace. -/
structure Err where
  message : String
  stack : String
deriving Repr, DecidableEq

/-- A module record (the fields of `Module` that `Server.handle` reads).
`hash` is the optional compiled-state fingerprint, `sourceHash` the raw
source fingerprint; `denoHooks`/`ssrPropsFn`/`ssgPathsFn` are the
server-only hook markers; `csrCode` is the lazily memoized client-only
variant attached by `Object.assign(module, { csrCode })`. -/
structure Module where
  specifier : String
  jsFile : String
  hash : Option String
  sourceHash : String
  denoHooks : List String
  ssrPropsFn : Bool
  ssgPathsFn : Bool
  csrCode : Option String
deriving Repr, DecidableEq

/-- The response the dispatcher produces: status, accumulated headers,
body text and the content type passed to `send`/`json` (`none` when `send`
is called without one, as in the plain-text 404). -/
structure Response where
  status : Nat
  headers : List (String × String)
  body : String
  contentType : Option String
deriving Repr, DecidableEq

/-- The default export of a dynamically imported API module: either not a
function (fails `util.isFunction`) or a handler that, given the matched
params and query, either produces a response or throws. -/
inductive ApiExport where
  | notFn : ApiExport
  | fn (h : String → String → Except Err Response) : ApiExport

/-- The application state and collaborator surface `Server.handle`
consults.  Collaborators outside the sampled source are function-valued
fields: `fsExists` models `existsFile`, `fileMtime`/`fileText` the
filesystem reads, `md5Hex` the md5 digest of the concatenated
`update` inputs, `mime` the extension-to-MIME table behind
`getContentType`, `atobUrl` the base64url decoder, and the remaining
fields the `Application` methods of the same names. -/
structure App where
  isDev : Bool
  basePath : String
  workingDir : String
  buildDir : String
  version : String
  now : String
  configHeaders : List (String × String)
  modules : List Module
  fsExists : String → Bool
  fileMtime : String → Option String
  fileText : String → String
  md5Hex : String → String
  mainJS : String
  getSSRData : String → Option String
  atobUrl : String → String
  compile : String → Except Err Module
  getModuleJS : Module → Option String
  isHMRable : String → Bool
  hmrInjects : String → List (String → String → String)
  stripSsr : String → String → String
  getAPIRoute : String → String → Option (String × String × String)
  importModule : String → Except Err ApiExport
  getPageHTML : String → String → Except Err (Nat × String)
  mime : String → String

/-- The request data `Server.handle` reads: the rewritten, decoded
pathname, the serialized search string, and the two cache-validation
request headers. -/
structure Req where
  pathname : String
  search : String
  ifNoneMatch : Option String
  ifModifiedSince : Option String
deriving Repr, DecidableEq

/-! ## Server.handle, branch by branch -/

/-- Evaluate `module.hash || module.sourceHash` with JS truthiness: an
absent or empty `hash` falls back to `sourceHash`. -/
def hashOrSource (m : Module) : String :=
  match m.hash with
  | some h => if h = "" then m.sourceHash else h
  | none => m.sourceHash

/-- The truthiness test at server.ts:131:
`module.denoHooks?.length || module.ssrPropsFn || module.ssgPathsFn`. -/
def hasServerHooks (m : Module) : Bool :=
  !m.denoHooks.isEmpty || m.ssrPropsFn || m.ssgPathsFn

/-- The `getCodeInjects('hmr', specifier)?.forEach` loop: apply each
transform in order, each receiving the previous transform's output. -/
def applyInjects (ts : List (String → String → String)) (specifier code : String) : String :=
  ts.foldl (fun c t => t specifier c) code

/-- The fixed three-part template at server.ts:145-151: hot-context
registration line, blank, code, blank, trailing hot-accept call. -/
def hotWrap (specifier code : String) : String :=
  joinSep "\n"
    [ "import.meta.hot = window.$createHotContext(" ++ jsonString specifier ++ ");",
      "",
      code,
      "",
      "import.meta.hot.accept();" ]

/-- Replace the module record with the given specifier (models the JS
in-place mutation of the shared record object). -/
def replaceModule (mods : List Module) (m : Module) : List Module :=
  mods.map (fun x => if x.specifier == m.specifier then m else x)

/-- Modelled from the spec: `app.compile` registers or replaces the
compiled module's record in the shared module collection. -/
def upsertModule (mods : List Module) (m : Module) : List Module :=
  if mods.any (fun x => x.specifier == m.specifier) then replaceModule mods m
  else mods ++ [m]

/-- server.ts:118-158: serve a found module's compiled JS.  Returns
`none` when `getModuleJS` yields no content (the handler falls through to
the build-directory lookup).  The returned `App` reflects the
`Object.assign(module, { csrCode })` memoization. -/
def serveModuleJS (app : App) (hdrs : List (String × String)) (ifNoneMatch : Option String)
    (m : Module) : Option (Response × App) :=
  match app.getModuleJS m with
  | none => none
  | some content =>
    let etag := app.md5Hex (app.version ++ hashOrSource m)
    if ifNoneMatch = some etag then
      some ({ status := 304, headers := hdrs, body := "", contentType := none }, app)
    else
      if app.isDev && app.isHMRable m.specifier then
        let stripped :=
          if hasServerHooks m then
            match m.csrCode with
            | some csr => (csr, app)
            | none =>
              let csr := app.stripSsr m.specifier content
              (csr, { app with modules := replaceModule app.modules { m with csrCode := some csr } })
          else (content, app)
        let code := applyInjects (app.hmrInjects m.specifier) m.specifier stripped.1
        some ({ status := 200, headers := hdrs ++ [("ETag", etag)],
                body := hotWrap m.specifier code,
                contentType := some "application/javascript; charset=utf-8" }, stripped.2)
      else
        some ({ status := 200, headers := hdrs ++ [("ETag", etag)],
                body := content,
                contentType := some "application/javascript; charset=utf-8" }, app)

/-- server.ts:110-116: probe the candidate list, compiling the first
candidate that exists on disk (a thrown compile error propagates). -/
def probeCompileAux (app : App) (relPath : String) : List String → Except Err (Option Module)
  | [] => .ok none
  | e :: rest =>
    let sepc := trimSuffixStr relPath ".js" ++ e
    if app.fsExists (pathJoin app.workingDir sepc) then
      match app.compile sepc with
      | .ok m => .ok (some m)
      | .error err => .error err
    else probeCompileAux app relPath rest

/-- The probe extension list at server.ts:110:
`[...builtinModuleExts.map(ext => "." + ext), '']`. -/
def probeExts : List String :=
  builtinModuleExts.map (fun e => "." ++ e) ++ [""]

/-- The whole probe loop over `probeExts`. -/
def probeCompile (app : App) (relPath : String) : Except Err (Option Module) :=
  probeCompileAux app relPath probeExts

/-- server.ts:107-159: the `.js` branch of the dist-file handler — find a
module record by output path, else (dev mode) probe-compile; then serve
its JS.  `(none, app')` means control falls through to the
build-directory lookup. -/
def serveAlephJS (app : App) (hdrs : List (String × String)) (relPath : String)
    (ifNoneMatch : Option String) : Except Err (Option Response × App) :=
  match app.modules.find? (fun m => m.jsFile == relPath) with
  | some m =>
    match serveModuleJS app hdrs ifNoneMatch m with
    | some (r, a) => .ok (some r, a)
    | none => .ok (none, app)
  | none =>
    if app.isDev then
      match probeCompile app relPath with
      | .error err => .error err
      | .ok none => .ok (none, app)
      | .ok (some m) =>
        let app1 := { app with modules := upsertModule app.modules m }
        match serveModuleJS app1 hdrs ifNoneMatch m with
        | some (r, a) => .ok (some r, a)
        | none => .ok (none, app1)
    else .ok (none, app)

/-- Modelled from the spec: `getContentType` (from `server/mime.ts`,
outside the sampled source) derives the MIME type from the file's
extension via the app's extension-to-MIME table. -/
def getContentType (app : App) (path : String) : String :=
  app.mime (fileExt path)

/-- server.ts:161-179: the build-directory file lookup a fallen-through
dist request ends in, and the trailing plain-text 404. -/
def serveBuildFile (a : App) (hdrs : List (String × String)) (relPath : String)
    (ifModifiedSince : Option String) : Response :=
  let filePath := pathJoin a.buildDir relPath
  if a.fsExists filePath then
    let lastModified := (a.fileMtime filePath).getD a.now
    if ifModifiedSince = some lastModified then
      { status := 304, headers := hdrs, body := "", contentType := none }
    else
      { status := 200, headers := hdrs ++ [("Last-Modified", lastModified)],
        body := a.fileText filePath, contentType := some (getContentType a filePath) }
  else
    { status := 404, headers := hdrs, body := "not found", contentType := none }

/-- server.ts:89-180: the `/_aleph/` dist-file branch — SSR-data
sub-branch, `main.js`, compiled-module serving, build-directory files,
and the trailing plain-text 404. -/
def serveAleph (app : App) (hdrs : List (String × String)) (pathname : String)
    (ifNoneMatch ifModifiedSince : Option String) : Except Err (Response × App) :=
  if strStartsWith pathname "/_aleph/data/" && strEndsWith pathname ".json" then
    let path := app.atobUrl (trimSuffixStr (trimPrefixStr pathname "/_aleph/data/") ".json")
    match app.getSSRData path with
    | none =>
      .ok ({ status := 404, headers := hdrs, body := "null",
             contentType := some "application/json; charset=utf-8" }, app)
    | some data =>
      .ok ({ status := 200, headers := hdrs, body := data,
             contentType := some "application/json; charset=utf-8" }, app)
  else
    let relPath := trimPrefixStr pathname "/_aleph"
    if relPath = "/main.js" then
      .ok ({ status := 200, headers := hdrs, body := app.mainJS,
             contentType := some "application/javascript; charset=utf-8" }, app)
    else
      match (if strEndsWith relPath ".js" then serveAlephJS app hdrs relPath ifNoneMatch
             else .ok (none, app)) with
      | .error err => .error err
      | .ok (some r, a) => .ok (r, a)
      | .ok (none, a) => .ok (serveBuildFile a hdrs relPath ifModifiedSince, a)

/-- server.ts:183-196: serve a file under `public/` when it exists;
`none` means the path is not a public file and dispatch continues. -/
def servePublic (app : App) (hdrs : List (String × String)) (pathname : String)
    (ifModifiedSince : Option String) : Option Response :=
  let filePath := pathJoin (pathJoin app.workingDir "public") pathname
  if app.fsExists filePath then
    let lastModified := (app.fileMtime filePath).getD app.now
    if ifModifiedSince = some lastModified then
      some { status := 304, headers := hdrs, body := "", contentType := none }
    else
      some { status := 200, headers := hdrs ++ [("Last-Modified", lastModified)],
             body := app.fileText filePath,
             contentType := some (getContentType app filePath) }
  else none

/-- The JSON error envelope `{status, message}` produced by
`req.status(n).json({status, message})`. -/
def jsonEnvelope (status : Nat) (message : String) : String :=
  "\x7b" ++ jsonString "status" ++ ":" ++ toString status ++ ","
    ++ jsonString "message" ++ ":" ++ jsonString message ++ "\x7d"

/-- server.ts:199-221: the `/api/` branch — route lookup, dynamic import,
the invokable check and the handler-fault catch. -/
def serveAPI (app : App) (hdrs : List (String × String)) (pathname search : String) : Response :=
  match app.getAPIRoute pathname search with
  | none =>
    { status := 404, headers := hdrs, body := jsonEnvelope 404 "not found",
      contentType := some "application/json; charset=utf-8" }
  | some (params, query, modRef) =>
    match app.importModule modRef with
    | .error err =>
      { status := 500, headers := hdrs, body := jsonEnvelope 500 err.message,
        contentType := some "application/json; charset=utf-8" }
    | .ok .notFn =>
      { status := 500, headers := hdrs, body := jsonEnvelope 500 "bad api handler",
        contentType := some "application/json; charset=utf-8" }
    | .ok (.fn h) =>
      match h params query with
      | .ok r => r
      | .error err =>
        { status := 500, headers := hdrs, body := jsonEnvelope 500 err.message,
          contentType := some "application/json; charset=utf-8" }

/-- The headers seeded before dispatch: the configured custom headers and,
in dev mode, `Cache-Control: max-age=0` (server.ts:38-46). -/
def baseHeaders (app : App) : List (String × String) :=
  app.configHeaders ++ (if app.isDev then [("Cache-Control", "max-age=0")] else [])

/-- server.ts:229-238: the top-level catch renders a diagnostic HTML page
with the error's message and stack. -/
def errorPage (hdrs : List (String × String)) (e : Err) : Response :=
  { status := 500, headers := hdrs,
    body := joinSep "\n"
      [ "<!DOCTYPE html>",
        "<title>Server Error</title>",
        "<h1>Error: " ++ e.message ++ "</h1>",
        "<p><pre>" ++ e.stack ++ "</pre></p>" ],
    contentType := some "text/html; charset=utf-8" }

/-- The dispatch tree inside the `try` (server.ts:48-228).  The `/_hmr`
branch upgrades the connection; the session it runs is modelled
separately by `hmrRun`, so here it is recorded as a 101 upgrade with no
HTTP body. -/
def handleCore (app : App) (req : Req) : Except Err (Response × App) :=
  let hdrs := baseHeaders app
  if req.pathname = "/_hmr" then
    .ok ({ status := 101, headers := hdrs, body := "", contentType := none }, app)
  else if strStartsWith req.pathname "/_aleph/" then
    serveAleph app hdrs req.pathname req.ifNoneMatch req.ifModifiedSince
  else
    match servePublic app hdrs req.pathname req.ifModifiedSince with
    | some r => .ok (r, app)
    | none =>
      if strStartsWith req.pathname "/api/" then
        .ok (serveAPI app hdrs req.pathname req.search, app)
      else
        match app.getPageHTML req.pathname req.search with
        | .ok (st, html) =>
          .ok ({ status := st, headers := hdrs, body := html,
                 contentType := some "text/html; charset=utf-8" }, app)
        | .error err => .error err

/-- The whole of `Server.handle`: the dispatch tree wrapped in the
top-level catch. -/
def handle (app : App) (req : Req) : Response × App :=
  match handleCore app req with
  | .ok r => r
  | .error e => (errorPage (baseHeaders app) e, app)

/-! ## The HMR websocket session (server.ts:50-86) -/

/-- The `updateUrl` computed at server.ts:73:
`util.cleanPath(basePath + "/_aleph/" + trimBuiltinModuleExts(specifier) + ".js")`. -/
def updateUrlOf (basePath specifier : String) : String :=
  cleanPath (basePath ++ "/_aleph/" ++ trimBuiltinModuleExts specifier ++ ".js")

/-- A modify-listener closure registered on the channel's watcher by a
`hotAccept` message: the event name it is keyed under and the captured
specifier and update URL. -/
structure Sub where
  event : String
  specifier : String
  updateUrl : String
deriving Repr, DecidableEq

/-- A message the session sends on the socket.  The spread payloads
(`{...mod}`, `{...data}`) are carried as opaque strings. -/
inductive HmrMsg where
  | add (modInfo : String) : HmrMsg
  | remove (specifier : String) : HmrMsg
  | update (payload : String) (specifier : String) (updateUrl : String) : HmrMsg
deriving Repr, DecidableEq

/-- An inbound text frame at the parsed level: a `hotAccept` message, some
other well-formed JSON, or an unparsable frame (`JSON.parse` throws and
the catch at server.ts:78 silently ignores it). -/
inductive ClientMsg where
  | hotAccept (specifier : String) : ClientMsg
  | other : ClientMsg
  | malformed : ClientMsg
deriving Repr, DecidableEq

/-- One stimulus to an open session: an inbound client frame, or the
channel's watcher emitting one of its events. -/
inductive HmrInput where
  | client (m : ClientMsg) : HmrInput
  | modify (specifier : String) (payload : String) : HmrInput
  | addEvt (modInfo : String) : HmrInput
  | removeEvt (specifier : String) : HmrInput
deriving Repr, DecidableEq

/-- One step of the open session: how server.ts:54-82 reacts to a single
stimulus, as (new listener list, messages sent).  `on` appends a
listener; `removeAllListeners` drops every listener for the event;
firing an event runs its listeners in registration order. -/
def hmrStep (app : App) (subs : List Sub) : HmrInput → List Sub × List HmrMsg
  | .client (.hotAccept specifier) =>
    if specifier ≠ "" then
      match app.modules.find? (fun m => m.specifier == specifier) with
      | some m =>
        (subs ++ [⟨"modify-" ++ m.specifier, m.specifier, updateUrlOf app.basePath m.specifier⟩], [])
      | none => (subs, [])
    else (subs, [])
  | .client .other => (subs, [])
  | .client .malformed => (subs, [])
  | .modify specifier payload =>
    (subs, (subs.filter (fun s => s.event == "modify-" ++ specifier)).map
      (fun s => .update payload s.specifier s.updateUrl))
  | .addEvt info => (subs, [.add info])
  | .removeEvt specifier =>
    (subs.filter (fun s => s.event != "modify-" ++ specifier), [.remove specifier])

/-- Run an open session over a stimulus sequence, accumulating the
messages sent in order. -/
def hmrRun (app : App) (subs : List Sub) : List HmrInput → List Sub × List HmrMsg
  | [] => (subs, [])
  | i :: rest =>
    let st := hmrStep app subs i
    let rst := hmrRun app st.1 rest
    (rst.1, st.2 ++ rst.2)

/-! ## Dispatch lemmas -/

lemma handle_eq (app : App) (req : Req) :
    handle app req =
      match handleCore app req with
      | .ok ra => ra
      | .error e => (errorPage (baseHeaders app) e, app) := rfl

lemma ne_hmr_of_aleph {p : String} (h : strStartsWith p "/_aleph/" = true) :
    ¬ p = "/_hmr" := by
  intro he
  subst he
  exact absurd h (by decide)

lemma handleCore_aleph (app : App) (req : Req)
    (hA : strStartsWith req.pathname "/_aleph/" = true) :
    handleCore app req =
      serveAleph app (baseHeaders app) req.pathname req.ifNoneMatch req.ifModifiedSince := by
  simp [handleCore, hA, ne_hmr_of_aleph hA]

lemma serveAleph_module (app : App) (hdrs : List (String × String))
    (pathname : String) (inm ims : Option String) (m : Module)
    (hData : (strStartsWith pathname "/_aleph/data/" && strEndsWith pathname ".json") = false)
    (hMain : ¬ trimPrefixStr pathname "/_aleph" = "/main.js")
    (hJs : strEndsWith (trimPrefixStr pathname "/_aleph") ".js" = true)
    (hFind : app.modules.find? (fun x => x.jsFile == trimPrefixStr pathname "/_aleph")
      = some m) :
    serveAleph app hdrs pathname inm ims =
      match serveModuleJS app hdrs inm m with
      | some ra => .ok ra
      | none => .ok (serveBuildFile app hdrs (trimPrefixStr pathname "/_aleph") ims, app) := by
  unfold serveAleph serveAlephJS
  simp only [hData, hMain, hJs, hFind, Bool.false_eq_true, if_false, if_true, ite_true,
    ite_false]
  cases h : serveModuleJS app hdrs inm m with
  | none => simp [h]
  | some ra => cases ra with | mk r a => simp [h]

lemma handle_module (app : App) (req : Req) (m : Module)
    (hA : strStartsWith req.pathname "/_aleph/" = true)
    (hData : (strStartsWith req.pathname "/_aleph/data/" && strEndsWith req.pathname ".json")
      = false)
    (hMain : ¬ trimPrefixStr req.pathname "/_aleph" = "/main.js")
    (hJs : strEndsWith (trimPrefixStr req.pathname "/_aleph") ".js" = true)
    (hFind : app.modules.find? (fun x => x.jsFile == trimPrefixStr req.pathname "/_aleph")
      = some m) :
    handle app req =
      match serveModuleJS app (baseHeaders app) req.ifNoneMatch m with
      | some ra => ra
      | none =>
        (serveBuildFile app (baseHeaders app) (trimPrefixStr req.pathname "/_aleph")
          req.ifModifiedSince, app) := by
  rw [handle_eq, handleCore_aleph app req hA,
    serveAleph_module app (baseHeaders app) req.pathname req.ifNoneMatch req.ifModifiedSince m
      hData hMain hJs hFind]
  cases serveModuleJS app (baseHeaders app) req.ifNoneMatch m with
  | none => rfl
  | some ra => rfl

/-! ## serveModuleJS branch lemmas -/

lemma serveModuleJS_none (app : App) (hdrs : List (String × String)) (inm : Option String)
    (m : Module) (hJS : app.getModuleJS m = none) :
    serveModuleJS app hdrs inm m = none := by
  unfold serveModuleJS
  rw [hJS]

lemma serveModuleJS_304 (app : App) (hdrs : List (String × String)) (inm : Option String)
    (m : Module) (content : String) (hJS : app.getModuleJS m = some content)
    (hMatch : inm = some (app.md5Hex (app.version ++ hashOrSource m))) :
    serveModuleJS app hdrs inm m =
      some ({ status := 304, headers := hdrs, body := "", contentType := none }, app) := by
  unfold serveModuleJS
  rw [hJS]
  simp [hMatch]

lemma serveModuleJS_plain (app : App) (hdrs : List (String × String)) (inm : Option String)
    (m : Module) (content : String) (hJS : app.getModuleJS m = some content)
    (hNoMatch : ¬ inm = some (app.md5Hex (app.version ++ hashOrSource m)))
    (hPlain : (app.isDev && app.isHMRable m.specifier) = false) :
    serveModuleJS app hdrs inm m =
      some ({ status := 200,
              headers := hdrs ++ [("ETag", app.md5Hex (app.version ++ hashOrSource m))],
              body := content,
              contentType := some "application/javascript; charset=utf-8" }, app) := by
  unfold serveModuleJS
  rw [hJS]
  simp [hNoMatch, hPlain]

lemma serveModuleJS_hmr_noHooks (app : App) (hdrs : List (String × String))
    (inm : Option String) (m : Module) (content : String)
    (hJS : app.getModuleJS m = some content)
    (hNoMatch : ¬ inm = some (app.md5Hex (app.version ++ hashOrSource m)))
    (hDevHmr : (app.isDev && app.isHMRable m.specifier) = true)
    (hHooks : hasServerHooks m = false) :
    serveModuleJS app hdrs inm m =
      some ({ status := 200,
              headers := hdrs ++ [("ETag", app.md5Hex (app.version ++ hashOrSource m))],
              body := hotWrap m.specifier
                (applyInjects (app.hmrInjects m.specifier) m.specifier content),
              contentType := some "application/javascript; charset=utf-8" }, app) := by
  unfold serveModuleJS
  rw [hJS]
  simp [hNoMatch, hDevHmr, hHooks]

lemma serveModuleJS_hmr_fresh (app : App) (hdrs : List (String × String))
    (inm : Option String) (m : Module) (content : String)
    (hJS : app.getModuleJS m = some content)
    (hNoMatch : ¬ inm = some (app.md5Hex (app.version ++ hashOrSource m)))
    (hDevHmr : (app.isDev && app.isHMRable m.specifier) = true)
    (hHooks : hasServerHooks m = true)
    (hFresh : m.csrCode = none) :
    serveModuleJS app hdrs inm m =
      some ({ status := 200,
              headers := hdrs ++ [("ETag", app.md5Hex (app.version ++ hashOrSource m))],
              body := hotWrap m.specifier
                (applyInjects (app.hmrInjects m.specifier) m.specifier
                  (app.stripSsr m.specifier content)),
              contentType := some "application/javascript; charset=utf-8" },
            { app with modules := replaceModule app.modules ({ m with csrCode := some (app.stripSsr m.specifier content) }) }) := by
  unfold serveModuleJS
  rw [hJS]
  simp [hNoMatch, hDevHmr, hHooks, hFresh]

lemma serveModuleJS_hmr_memo (app : App) (hdrs : List (String × String))
    (inm : Option String) (m : Module) (content csr : String)
    (hJS : app.getModuleJS m = some content)
    (hNoMatch : ¬ inm = some (app.md5Hex (app.version ++ hashOrSource m)))
    (hDevHmr : (app.isDev && app.isHMRable m.specifier) = true)
    (hHooks : hasServerHooks m = true)
    (hMemo : m.csrCode = some csr) :
    serveModuleJS app hdrs inm m =
      some ({ status := 200,
              headers := hdrs ++ [("ETag", app.md5Hex (app.version ++ hashOrSource m))],
              body := hotWrap m.specifier
                (applyInjects (app.hmrInjects m.specifier) m.specifier csr),
              contentType := some "application/javascript; charset=utf-8" }, app) := by
  unfold serveModuleJS
  rw [hJS]
  simp [hNoMatch, hDevHmr, hHooks, hMemo]

/-! ## Probe lemmas -/

lemma probeCompileAux_none (app : App) (relPath : String) (exts : List String)
    (h : ∀ e ∈ exts,
      app.fsExists (pathJoin app.workingDir (trimSuffixStr relPath ".js" ++ e)) = false) :
    probeCompileAux app relPath exts = .ok none := by
  induction exts with
  | nil => rfl
  | cons e rest ih =>
    unfold probeCompileAux
    simp only [h e (List.mem_cons_self e rest), Bool.false_eq_true, if_false, ite_false]
    exact ih (fun x hx => h x (List.mem_cons_of_mem e hx))

lemma probeCompileAux_hit (app : App) (relPath : String) (pre : List String) (e : String)
    (post : List String)
    (hpre : ∀ x ∈ pre,
      app.fsExists (pathJoin app.workingDir (trimSuffixStr relPath ".js" ++ x)) = false)
    (hhit : app.fsExists (pathJoin app.workingDir (trimSuffixStr relPath ".js" ++ e)) = true) :
    probeCompileAux app relPath (pre ++ e :: post) =
      match app.compile (trimSuffixStr relPath ".js" ++ e) with
      | .ok m => .ok (some m)
      | .error err => .error err := by
  induction pre with
  | nil =>
    unfold probeCompileAux
    simp [hhit]
  | cons x xs ih =>
    unfold probeCompileAux
    simp only [List.cons_append, hpre x (List.mem_cons_self x xs), Bool.false_eq_true,
      if_false, ite_false]
    exact ih (fun y hy => hpre y (List.mem_cons_of_mem x hy))

lemma serveAleph_probe (app : App) (hdrs : List (String × String))
    (pathname : String) (inm ims : Option String)
    (hData : (strStartsWith pathname "/_aleph/data/" && strEndsWith pathname ".json") = false)
    (hMain : ¬ trimPrefixStr pathname "/_aleph" = "/main.js")
    (hJs : strEndsWith (trimPrefixStr pathname "/_aleph") ".js" = true)
    (hFind : app.modules.find? (fun x => x.jsFile == trimPrefixStr pathname "/_aleph") = none)
    (hDev : app.isDev = true) :
    serveAleph app hdrs pathname inm ims =
      match probeCompile app (trimPrefixStr pathname "/_aleph") with
      | .error err => .error err
      | .ok none => .ok (serveBuildFile app hdrs (trimPrefixStr pathname "/_aleph") ims, app)
      | .ok (some m) =>
        match serveModuleJS ({ app with modules := upsertModule app.modules m }) hdrs inm m with
        | some ra => .ok ra
        | none =>
          .ok (serveBuildFile ({ app with modules := upsertModule app.modules m }) hdrs
            (trimPrefixStr pathname "/_aleph") ims,
            { app with modules := upsertModule app.modules m }) := by
  unfold serveAleph serveAlephJS
  simp only [hData, hMain, hJs, hFind, hDev, Bool.false_eq_true, if_false, if_true,
    ite_true, ite_false]
  cases hp : probeCompile app (trimPrefixStr pathname "/_aleph") with
  | error err => simp
  | ok om =>
    cases om with
    | none => simp
    | some m =>
      cases hs : serveModuleJS ({ app with modules := upsertModule app.modules m }) hdrs inm m
        with
      | none =>
        simp only [hDev] at hs
        simp [hs]
      | some ra =>
        cases ra with
        | mk r a =>
          simp only [hDev] at hs
          simp [hs]

lemma handle_aleph (app : App) (req : Req)
    (hA : strStartsWith req.pathname "/_aleph/" = true) :
    handle app req =
      match serveAleph app (baseHeaders app) req.pathname req.ifNoneMatch
          req.ifModifiedSince with
      | .ok ra => ra
      | .error e => (errorPage (baseHeaders app) e, app) := by
  rw [handle_eq, handleCore_aleph app req hA]

/-! ## Module-record replacement preserves lookup -/

lemma find?_replaceModule (mods : List Module) (m : Module) (relPath : String) (csr : String)
    (h : mods.find? (fun x => x.jsFile == relPath) = some m) :
    (replaceModule mods ({ m with csrCode := some csr })).find?
      (fun x => x.jsFile == relPath) = some ({ m with csrCode := some csr }) := by
  induction mods with
  | nil => simp [List.find?] at h
  | cons x xs ih =>
    rw [List.find?_cons] at h
    simp only [replaceModule, List.map_cons]
    rw [List.find?_cons]
    cases hx : (x.jsFile == relPath) with
    | true =>
      rw [hx] at h
      have hxm : x = m := by injection h
      subst hxm
      simp [hx]
    | false =>
      rw [hx] at h
      have hrec := ih h
      have hm : (m.jsFile == relPath) = true := by
        simpa using List.find?_some h
      cases hs : (x.specifier == ({ m with csrCode := some csr } : Module).specifier) with
      | true => simp [hs, hm]
      | false =>
        simp only [replaceModule] at hrec
        simp only [Bool.false_eq_true, if_false, ite_false, hx]
        exact hrec

/-! ## HMR session lemmas -/

lemma hmrStep_hotAccept (app : App) (subs : List Sub) (s : String) (m : Module)
    (hs : ¬ s = "")
    (hFind : app.modules.find? (fun x => x.specifier == s) = some m) :
    hmrStep app subs (.client (.hotAccept s)) =
      (subs ++ [⟨"modify-" ++ m.specifier, m.specifier, updateUrlOf app.basePath m.specifier⟩],
        []) := by
  unfold hmrStep
  simp [hs, hFind]

lemma hmrStep_modify (app : App) (subs : List Sub) (s payload : String) :
    hmrStep app subs (.modify s payload) =
      (subs, (subs.filter (fun t => t.event == "modify-" ++ s)).map
        (fun t => .update payload t.specifier t.updateUrl)) := rfl

lemma find?_specifier_eq (app : App) (s : String) (m : Module)
    (hFind : app.modules.find? (fun x => x.specifier == s) = some m) :
    m.specifier = s := by
  simpa using List.find?_some hFind

lemma filter_ne_then_eq (l : List Sub) (e : String) :
    (l.filter (fun t => t.event != e)).filter (fun t => t.event == e) = [] := by
  induction l with
  | nil => rfl
  | cons x xs ih =>
    by_cases hx : (x.event == e) = true
    · simp [List.filter_cons, bne, hx, ih]
    · have hx' : (x.event == e) = false := by simpa using hx
      simp [List.filter_cons, bne, hx', ih]

/-! ## Concrete fixtures -/

/-- A concrete module record for the concrete instances below. -/
def fxModule : Module :=
  { specifier := "/pages/index.tsx", jsFile := "/pages/index.js", hash := some "h1",
    sourceHash := "s1", denoHooks := [], ssrPropsFn := false, ssgPathsFn := false,
    csrCode := none }

/-- A concrete application state for the concrete instances below. -/
def fxApp : App :=
  { isDev := true, basePath := "/", workingDir := "/w", buildDir := "/w/.aleph",
    version := "0.3.0", now := "Mon, 01 Jan 2024 00:00:00 GMT", configHeaders := [],
    modules := [fxModule],
    fsExists := fun _ => false, fileMtime := fun _ => none, fileText := fun _ => "",
    md5Hex := fun s => s, mainJS := "main-js", getSSRData := fun _ => none,
    atobUrl := fun s => s, compile := fun _ => .error ⟨"compile failed", "stack"⟩,
    getModuleJS := fun _ => some "console.log(1);",
    isHMRable := fun _ => true, hmrInjects := fun _ => [], stripSsr := fun _ c => c,
    getAPIRoute := fun _ _ => none, importModule := fun _ => .error ⟨"import", "stack"⟩,
    getPageHTML := fun _ _ => .ok (200, "<html></html>"), mime := fun e => "mime/" ++ e }

/-! ## Claim C2 -/

/-- C2 (counterexample): on one channel, a second `hotAccept` for the same
specifier does not replace the first subscription.  After two identical
`hotAccept` messages a single modify event for the specifier produces two
`update` messages, contradicting the at-most-one-subscription claim. -/
theorem c2_counterexample :
    (hmrRun fxApp [] [.client (.hotAccept "/pages/index.tsx"),
        .client (.hotAccept "/pages/index.tsx"),
        .modify "/pages/index.tsx" "p"]).2
      = [.update "p" "/pages/index.tsx" "/_aleph/pages/index.js",
         .update "p" "/pages/index.tsx" "/_aleph/pages/index.js"]
    ∧ ¬ (hmrRun fxApp [] [.client (.hotAccept "/pages/index.tsx"),
        .client (.hotAccept "/pages/index.tsx"),
        .modify "/pages/index.tsx" "p"]).2.length ≤ 1 := by
  constructor
  · decide
  · decide

/-- C2 (amended): the handler registers listeners with the watcher's
plain `on`, which appends: a repeated `hotAccept` for the same specifier
on the same channel adds a second subscription rather than replacing the
first, and a single modify event produces one `update` message per
accumulated subscription (hence two after two identical `hotAccept`s). -/
theorem c2_resubscribe_duplicates (app : App) (subs : List Sub) (s payload : String)
    (m : Module) (hs : ¬ s = "")
    (hFind : app.modules.find? (fun x => x.specifier == s) = some m) :
    (hmrStep app subs (.client (.hotAccept s))).1
      = subs ++ [⟨"modify-" ++ m.specifier, m.specifier, updateUrlOf app.basePath m.specifier⟩]
    ∧ (hmrStep app subs (.modify s payload)).2.length
      = (subs.filter (fun t => t.event == "modify-" ++ s)).length
    ∧ (hmrRun app [] [.client (.hotAccept s), .client (.hotAccept s),
        .modify s payload]).2.length = 2 := by
  have hspec := find?_specifier_eq app s m hFind
  have h1 := hmrStep_hotAccept app [] s m hs hFind
  have h2 := hmrStep_hotAccept app
    [⟨"modify-" ++ m.specifier, m.specifier, updateUrlOf app.basePath m.specifier⟩] s m hs hFind
  refine ⟨?_, ?_, ?_⟩
  · rw [hmrStep_hotAccept app subs s m hs hFind]
  · rw [hmrStep_modify]
    rw [List.length_map]
  · simp only [hmrRun, h1, h2, hmrStep_modify, List.nil_append]
    simp [hspec]

/-- Witness for C2's amended theorem at a concrete channel state. -/
theorem c2_witness :
    (hmrStep fxApp [] (.client (.hotAccept "/pages/index.tsx"))).1
      = [] ++ [⟨"modify-" ++ fxModule.specifier, fxModule.specifier,
          updateUrlOf fxApp.basePath fxModule.specifier⟩]
    ∧ (hmrStep fxApp [] (.modify "/pages/index.tsx" "p")).2.length
      = (([] : List Sub).filter (fun t => t.event == "modify-" ++ "/pages/index.tsx")).length
    ∧ (hmrRun fxApp [] [.client (.hotAccept "/pages/index.tsx"),
        .client (.hotAccept "/pages/index.tsx"), .modify "/pages/index.tsx" "p"]).2.length = 2 :=
  c2_resubscribe_duplicates fxApp [] "/pages/index.tsx" "p" fxModule (by decide) (by decide)

/-! ## Claim C6 -/

/-- C6: after a `hotAccept` for a specifier with a registered module, each
firing of the watcher's modify event for that specifier sends exactly one
`update` message carrying the specifier and the cleaned build-output
update URL; e.g. specifier `/pages/index.tsx` with base path `/` yields
`/_aleph/pages/index.js`. -/
theorem c6_hotAccept_update (app : App) (s payload : String) (m : Module)
    (hs : ¬ s = "")
    (hFind : app.modules.find? (fun x => x.specifier == s) = some m) :
    (hmrRun app [] [.client (.hotAccept s), .modify s payload]).2
      = [.update payload m.specifier (updateUrlOf app.basePath m.specifier)]
    ∧ (hmrRun app [] [.client (.hotAccept s), .modify s payload, .modify s payload]).2
      = [.update payload m.specifier (updateUrlOf app.basePath m.specifier),
         .update payload m.specifier (updateUrlOf app.basePath m.specifier)]
    ∧ updateUrlOf "/" "/pages/index.tsx" = "/_aleph/pages/index.js" := by
  have hspec := find?_specifier_eq app s m hFind
  have h1 := hmrStep_hotAccept app [] s m hs hFind
  refine ⟨?_, ?_, by decide⟩
  · simp only [hmrRun, h1, hmrStep_modify, List.nil_append]
    simp [hspec]
  · simp only [hmrRun, h1, hmrStep_modify, List.nil_append]
    simp [hspec]

/-- Witness for C6 at a concrete channel state. -/
theorem c6_witness :
    (hmrRun fxApp [] [.client (.hotAccept "/pages/index.tsx"),
        .modify "/pages/index.tsx" "p"]).2
      = [.update "p" fxModule.specifier (updateUrlOf fxApp.basePath fxModule.specifier)]
    ∧ (hmrRun fxApp [] [.client (.hotAccept "/pages/index.tsx"),
        .modify "/pages/index.tsx" "p", .modify "/pages/index.tsx" "p"]).2
      = [.update "p" fxModule.specifier (updateUrlOf fxApp.basePath fxModule.specifier),
         .update "p" fxModule.specifier (updateUrlOf fxApp.basePath fxModule.specifier)]
    ∧ updateUrlOf "/" "/pages/index.tsx" = "/_aleph/pages/index.js" :=
  c6_hotAccept_update fxApp "/pages/index.tsx" "p" fxModule (by decide) (by decide)

/-! ## Claim C7 -/

/-- C7: a watcher `remove` event for a specifier sends exactly
`remove specifier` on the channel and tears down every modify-listener
registered for that specifier on the channel's watcher, so a subsequent
modify event for that specifier produces no further messages. -/
theorem c7_remove_tears_down (app : App) (subs : List Sub) (s payload : String) :
    (hmrStep app subs (.removeEvt s)).2 = [.remove s]
    ∧ ((hmrStep app subs (.removeEvt s)).1.filter (fun t => t.event == "modify-" ++ s)) = []
    ∧ (hmrStep app (hmrStep app subs (.removeEvt s)).1 (.modify s payload)).2 = [] := by
  refine ⟨rfl, ?_, ?_⟩
  · exact filter_ne_then_eq subs ("modify-" ++ s)
  · rw [hmrStep_modify]
    show (((hmrStep app subs (.removeEvt s)).1.filter
      (fun t => t.event == "modify-" ++ s)).map _) = []
    rw [show (hmrStep app subs (.removeEvt s)).1
      = subs.filter (fun t => t.event != "modify-" ++ s) from rfl]
    rw [filter_ne_then_eq subs ("modify-" ++ s)]
    rfl

/-! ## Claim C1 -/

/-- The request used by the dist-file fixtures. -/
def fxReq : Req :=
  { pathname := "/_aleph/pages/index.js", search := "", ifNoneMatch := none,
    ifModifiedSince := none }

/-- C1 (counterexample): in dev mode, an HMR-eligible module with no
server-only hooks is *not* served byte-identical to the compiled output:
the hot-context wrapper and hot-accept call are still added.  `fxModule`
has no hooks, yet the served body differs from the compiled bytes. -/
theorem c1_counterexample :
    fxApp.isDev = true
    ∧ fxApp.isHMRable fxModule.specifier = true
    ∧ hasServerHooks fxModule = false
    ∧ fxApp.getModuleJS fxModule = some "console.log(1);"
    ∧ ¬ (handle fxApp fxReq).1.body = "console.log(1);"
    ∧ (handle fxApp fxReq).1.body
        = "import.meta.hot = window.$createHotContext(\"/pages/index.tsx\");\n\nconsole.log(1);\n\nimport.meta.hot.accept();" := by
  refine ⟨rfl, rfl, rfl, rfl, by decide, by decide⟩

/-- C1 (amended): in dev mode, for an HMR-eligible module the absence of
server-only hooks only skips the server-code-stripping step; the "hmr"
code-injection transforms and the hot-context wrapper are still applied,
so the served body is the wrapped (not plain) compiled output, and the
module record is left unchanged. -/
theorem c1_nohooks_still_wrapped (app : App) (req : Req) (m : Module) (content : String)
    (hA : strStartsWith req.pathname "/_aleph/" = true)
    (hData : (strStartsWith req.pathname "/_aleph/data/" && strEndsWith req.pathname ".json")
      = false)
    (hMain : ¬ trimPrefixStr req.pathname "/_aleph" = "/main.js")
    (hJs : strEndsWith (trimPrefixStr req.pathname "/_aleph") ".js" = true)
    (hFind : app.modules.find? (fun x => x.jsFile == trimPrefixStr req.pathname "/_aleph")
      = some m)
    (hJS : app.getModuleJS m = some content)
    (hNoMatch : ¬ req.ifNoneMatch = some (app.md5Hex (app.version ++ hashOrSource m)))
    (hDevHmr : (app.isDev && app.isHMRable m.specifier) = true)
    (hHooks : hasServerHooks m = false) :
    (handle app req).1.body
      = hotWrap m.specifier (applyInjects (app.hmrInjects m.specifier) m.specifier content)
    ∧ (handle app req).1.status = 200
    ∧ (handle app req).2 = app := by
  rw [handle_module app req m hA hData hMain hJs hFind,
    serveModuleJS_hmr_noHooks app (baseHeaders app) req.ifNoneMatch m content hJS hNoMatch
      hDevHmr hHooks]
  exact ⟨rfl, rfl, rfl⟩

/-- Witness for C1's amended theorem at a concrete state. -/
theorem c1_witness :
    (handle fxApp fxReq).1.body
      = hotWrap fxModule.specifier
          (applyInjects (fxApp.hmrInjects fxModule.specifier) fxModule.specifier
            "console.log(1);")
    ∧ (handle fxApp fxReq).1.status = 200
    ∧ (handle fxApp fxReq).2 = fxApp :=
  c1_nohooks_still_wrapped fxApp fxReq fxModule "console.log(1);"
    (by decide) (by decide) (by decide) (by decide) (by decide) rfl (by decide) rfl rfl

/-! ## Claim C10 -/

/-- A fixture whose module record exists but has no compiled content. -/
def fxAppNoJS : App := { fxApp with getModuleJS := fun _ => none }

/-- C10: when a matching module record has no compiled content, the
handler does not error: it falls through to the build-directory lookup
and, when that file is also absent, responds 404 with the plain-text body
"not found" (no content type, hence no JSON envelope), leaving the
application state unchanged. -/
theorem c10_empty_content_fallthrough (app : App) (req : Req) (m : Module)
    (hA : strStartsWith req.pathname "/_aleph/" = true)
    (hData : (strStartsWith req.pathname "/_aleph/data/" && strEndsWith req.pathname ".json")
      = false)
    (hMain : ¬ trimPrefixStr req.pathname "/_aleph" = "/main.js")
    (hJs : strEndsWith (trimPrefixStr req.pathname "/_aleph") ".js" = true)
    (hFind : app.modules.find? (fun x => x.jsFile == trimPrefixStr req.pathname "/_aleph")
      = some m)
    (hJS : app.getModuleJS m = none)
    (hBuild : app.fsExists (pathJoin app.buildDir (trimPrefixStr req.pathname "/_aleph"))
      = false) :
    (handle app req).1
      = { status := 404, headers := baseHeaders app, body := "not found", contentType := none }
    ∧ (handle app req).2 = app := by
  rw [handle_module app req m hA hData hMain hJs hFind,
    serveModuleJS_none app (baseHeaders app) req.ifNoneMatch m hJS]
  constructor
  · show serveBuildFile app (baseHeaders app) (trimPrefixStr req.pathname "/_aleph")
      req.ifModifiedSince = _
    unfold serveBuildFile
    simp [hBuild]
  · rfl

/-- Witness for C10 at a concrete state. -/
theorem c10_witness :
    (handle fxAppNoJS fxReq).1
      = { status := 404, headers := baseHeaders fxAppNoJS, body := "not found",
          contentType := none }
    ∧ (handle fxAppNoJS fxReq).2 = fxAppNoJS :=
  c10_empty_content_fallthrough fxAppNoJS fxReq fxModule
    (by decide) (by decide) (by decide) (by decide) (by decide) rfl rfl

/-! ## Claim C4 -/

lemma strAppend_right_cancel {a b c : String} (h : a ++ c = b ++ c) : a = b := by
  have hd : a.data ++ c.data = b.data ++ c.data := by
    rw [← String.data_append, ← String.data_append, h]
  have hab := List.append_cancel_right hd
  cases a
  cases b
  exact congrArg String.mk hab

/-- C4: the cache validator for a compiled module is the digest of the
build-version concatenated with the module's compiled-content hash (or,
when that is absent or empty, its raw-source hash).  A matching
`If-None-Match` short-circuits to a 304 with empty body, no extra headers
and no state change; a mismatch serves the body with the validator in the
`ETag` header; and — for a collision-free digest — changing the
build-version changes the validator even with unchanged module hashes. -/
theorem c4_etag_conditional_delivery (app : App) (req : Req) (m : Module) (content : String)
    (hA : strStartsWith req.pathname "/_aleph/" = true)
    (hData : (strStartsWith req.pathname "/_aleph/data/" && strEndsWith req.pathname ".json")
      = false)
    (hMain : ¬ trimPrefixStr req.pathname "/_aleph" = "/main.js")
    (hJs : strEndsWith (trimPrefixStr req.pathname "/_aleph") ".js" = true)
    (hFind : app.modules.find? (fun x => x.jsFile == trimPrefixStr req.pathname "/_aleph")
      = some m)
    (hJS : app.getModuleJS m = some content) :
    (req.ifNoneMatch = some (app.md5Hex (app.version ++ hashOrSource m)) →
      (handle app req).1
        = { status := 304, headers := baseHeaders app, body := "", contentType := none }
      ∧ (handle app req).2 = app)
    ∧ (¬ req.ifNoneMatch = some (app.md5Hex (app.version ++ hashOrSource m)) →
      (handle app req).1.status = 200
      ∧ ("ETag", app.md5Hex (app.version ++ hashOrSource m)) ∈ (handle app req).1.headers
      ∧ (handle app req).1.contentType = some "application/javascript; charset=utf-8")
    ∧ (∀ v1 v2 : String, ¬ v1 = v2 → Function.Injective app.md5Hex →
      ¬ app.md5Hex (v1 ++ hashOrSource m) = app.md5Hex (v2 ++ hashOrSource m)) := by
  refine ⟨?_, ?_, ?_⟩
  · intro hMatch
    rw [handle_module app req m hA hData hMain hJs hFind,
      serveModuleJS_304 app (baseHeaders app) req.ifNoneMatch m content hJS hMatch]
    exact ⟨rfl, rfl⟩
  · intro hNoMatch
    rw [handle_module app req m hA hData hMain hJs hFind]
    cases hdh : (app.isDev && app.isHMRable m.specifier) with
    | false =>
      rw [serveModuleJS_plain app (baseHeaders app) req.ifNoneMatch m content hJS hNoMatch hdh]
      exact ⟨rfl, by simp, rfl⟩
    | true =>
      cases hhk : hasServerHooks m with
      | false =>
        rw [serveModuleJS_hmr_noHooks app (baseHeaders app) req.ifNoneMatch m content hJS
          hNoMatch hdh hhk]
        exact ⟨rfl, by simp, rfl⟩
      | true =>
        cases hcsr : m.csrCode with
        | none =>
          rw [serveModuleJS_hmr_fresh app (baseHeaders app) req.ifNoneMatch m content hJS
            hNoMatch hdh hhk hcsr]
          exact ⟨rfl, by simp, rfl⟩
        | some csr =>
          rw [serveModuleJS_hmr_memo app (baseHeaders app) req.ifNoneMatch m content csr hJS
            hNoMatch hdh hhk hcsr]
          exact ⟨rfl, by simp, rfl⟩
  · intro v1 v2 hne hinj heq
    exact hne (strAppend_right_cancel (hinj heq))

/-- Witness for C4 at concrete states: a matching validator gives the
304, a missing one gives 200 with the `ETag` header, and two distinct
versions give distinct validators for the injective concrete digest. -/
theorem c4_witness :
    ((handle ({ fxApp with isDev := false })
        ({ fxReq with ifNoneMatch := some (fxApp.md5Hex (fxApp.version ++ hashOrSource fxModule)) })).1
      = { status := 304, headers := baseHeaders ({ fxApp with isDev := false }), body := "",
          contentType := none })
    ∧ (handle fxApp fxReq).1.status = 200
    ∧ ("ETag", fxApp.md5Hex (fxApp.version ++ hashOrSource fxModule))
        ∈ (handle fxApp fxReq).1.headers
    ∧ ¬ fxApp.md5Hex ("v1" ++ hashOrSource fxModule)
        = fxApp.md5Hex ("v2" ++ hashOrSource fxModule) := by
  refine ⟨?_, ?_, ?_, ?_⟩
  · exact ((c4_etag_conditional_delivery ({ fxApp with isDev := false })
      ({ fxReq with ifNoneMatch := some (fxApp.md5Hex (fxApp.version ++ hashOrSource fxModule)) })
      fxModule "console.log(1);"
      (by decide) (by decide) (by decide) (by decide) (by decide) rfl).1 rfl).1
  · exact ((c4_etag_conditional_delivery fxApp fxReq fxModule "console.log(1);"
      (by decide) (by decide) (by decide) (by decide) (by decide) rfl).2.1 (by decide)).1
  · exact ((c4_etag_conditional_delivery fxApp fxReq fxModule "console.log(1);"
      (by decide) (by decide) (by decide) (by decide) (by decide) rfl).2.1 (by decide)).2.1
  · exact (c4_etag_conditional_delivery fxApp fxReq fxModule "console.log(1);"
      (by decide) (by decide) (by decide) (by decide) (by decide) rfl).2.2 "v1" "v2"
      (by decide) (fun a b h => h)

/-! ## Claim C3 -/

/-- A fixture with no module records and one probe candidate on disk
whose compilation throws. -/
def fxAppProbe : App :=
  { fxApp with
    modules := [],
    fsExists := fun p => p == "/w/pages/a.tsx",
    compile := fun _ => .error ⟨"boom", "stacktrace"⟩ }

/-- A fixture with no module records and nothing on disk. -/
def fxAppNoCand : App := { fxApp with modules := [] }

/-- The module record `fxAppProbeOk`'s compiler returns. -/
def fxProbeModule (s : String) : Module :=
  { specifier := s, jsFile := "/pages/a.js", hash := none, sourceHash := "sh",
    denoHooks := [], ssrPropsFn := false, ssgPathsFn := false, csrCode := none }

/-- Like `fxAppProbe` but compilation succeeds. -/
def fxAppProbeOk : App :=
  { fxAppProbe with compile := fun s => .ok (fxProbeModule s) }

/-- The request used by the probe fixtures. -/
def fxReqProbe : Req :=
  { pathname := "/_aleph/pages/a.js", search := "", ifNoneMatch := none,
    ifModifiedSince := none }

/-- C3 (counterexample): when the probed candidate exists on disk but its
compilation fails, the response is the 500 HTML error page, not the 404
the claim asserts. -/
theorem c3_counterexample :
    fxAppProbe.isDev = true
    ∧ fxAppProbe.fsExists (pathJoin fxAppProbe.workingDir "/pages/a.tsx") = true
    ∧ fxAppProbe.compile "/pages/a.tsx" = .error ⟨"boom", "stacktrace"⟩
    ∧ (handle fxAppProbe fxReqProbe).1.status = 500
    ∧ ¬ (handle fxAppProbe fxReqProbe).1.status = 404
    ∧ (handle fxAppProbe fxReqProbe).1
        = errorPage (baseHeaders fxAppProbe) ⟨"boom", "stacktrace"⟩ := by
  refine ⟨rfl, by decide, rfl, by decide, by decide, by decide⟩

/-- C3 (amended): in dev mode with no matching module record, candidates
are probed in the fixed order (each recognized extension, then none),
stopping at the first file that exists; if no candidate exists on disk
(and the corresponding build-directory file is also absent) the response
is the plain-text 404; if the first existing candidate exists but its
compilation fails, the error propagates to the top-level catch and the
response is the 500 HTML error page, not a 404; if compilation succeeds,
the gateway resolves to exactly that compiled module. -/
theorem c3_probe_first_hit (app : App) (req : Req)
    (hA : strStartsWith req.pathname "/_aleph/" = true)
    (hData : (strStartsWith req.pathname "/_aleph/data/" && strEndsWith req.pathname ".json")
      = false)
    (hMain : ¬ trimPrefixStr req.pathname "/_aleph" = "/main.js")
    (hJs : strEndsWith (trimPrefixStr req.pathname "/_aleph") ".js" = true)
    (hFind : app.modules.find? (fun x => x.jsFile == trimPrefixStr req.pathname "/_aleph")
      = none)
    (hDev : app.isDev = true) :
    ((∀ e ∈ probeExts,
        app.fsExists (pathJoin app.workingDir
          (trimSuffixStr (trimPrefixStr req.pathname "/_aleph") ".js" ++ e)) = false) →
      app.fsExists (pathJoin app.buildDir (trimPrefixStr req.pathname "/_aleph")) = false →
      (handle app req).1
        = { status := 404, headers := baseHeaders app, body := "not found",
            contentType := none }
      ∧ (handle app req).2 = app)
    ∧ (∀ pre e post err, probeExts = pre ++ e :: post →
      (∀ x ∈ pre,
        app.fsExists (pathJoin app.workingDir
          (trimSuffixStr (trimPrefixStr req.pathname "/_aleph") ".js" ++ x)) = false) →
      app.fsExists (pathJoin app.workingDir
        (trimSuffixStr (trimPrefixStr req.pathname "/_aleph") ".js" ++ e)) = true →
      app.compile (trimSuffixStr (trimPrefixStr req.pathname "/_aleph") ".js" ++ e)
        = .error err →
      (handle app req).1 = errorPage (baseHeaders app) err
      ∧ (handle app req).1.status = 500)
    ∧ (∀ pre e post mm, probeExts = pre ++ e :: post →
      (∀ x ∈ pre,
        app.fsExists (pathJoin app.workingDir
          (trimSuffixStr (trimPrefixStr req.pathname "/_aleph") ".js" ++ x)) = false) →
      app.fsExists (pathJoin app.workingDir
        (trimSuffixStr (trimPrefixStr req.pathname "/_aleph") ".js" ++ e)) = true →
      app.compile (trimSuffixStr (trimPrefixStr req.pathname "/_aleph") ".js" ++ e)
        = .ok mm →
      probeCompile app (trimPrefixStr req.pathname "/_aleph") = .ok (some mm)) := by
  refine ⟨?_, ?_, ?_⟩
  · intro hNoCand hBuild
    have hpc : probeCompile app (trimPrefixStr req.pathname "/_aleph") = .ok none :=
      probeCompileAux_none app _ probeExts hNoCand
    rw [handle_aleph app req hA,
      serveAleph_probe app (baseHeaders app) req.pathname req.ifNoneMatch req.ifModifiedSince
        hData hMain hJs hFind hDev, hpc]
    constructor
    · show serveBuildFile app (baseHeaders app) (trimPrefixStr req.pathname "/_aleph")
        req.ifModifiedSince = _
      unfold serveBuildFile
      simp [hBuild]
    · rfl
  · intro pre e post err hsplit hpre hhit hcomp
    have hpc : probeCompile app (trimPrefixStr req.pathname "/_aleph") = .error err := by
      unfold probeCompile
      rw [hsplit, probeCompileAux_hit app _ pre e post hpre hhit, hcomp]
    rw [handle_aleph app req hA,
      serveAleph_probe app (baseHeaders app) req.pathname req.ifNoneMatch req.ifModifiedSince
        hData hMain hJs hFind hDev, hpc]
    exact ⟨rfl, rfl⟩
  · intro pre e post mm hsplit hpre hhit hcomp
    unfold probeCompile
    rw [hsplit, probeCompileAux_hit app _ pre e post hpre hhit, hcomp]

/-- Witness for C3 at concrete states exercising all three outcomes. -/
theorem c3_witness :
    ((handle fxAppNoCand fxReqProbe).1
      = { status := 404, headers := baseHeaders fxAppNoCand, body := "not found",
          contentType := none })
    ∧ (handle fxAppProbe fxReqProbe).1
        = errorPage (baseHeaders fxAppProbe) ⟨"boom", "stacktrace"⟩
    ∧ probeCompile fxAppProbeOk "/pages/a.js"
        = .ok (some (fxProbeModule "/pages/a.tsx")) := by
  refine ⟨?_, ?_, ?_⟩
  · exact ((c3_probe_first_hit fxAppNoCand fxReqProbe (by decide) (by decide) (by decide)
      (by decide) rfl rfl).1 (by intro e he; rfl) rfl).1
  · exact ((c3_probe_first_hit fxAppProbe fxReqProbe (by decide) (by decide) (by decide)
      (by decide) rfl rfl).2.1 [] ".tsx" [".jsx", ".ts", ".js", ".mjs", ""]
      ⟨"boom", "stacktrace"⟩ rfl (by intro x hx; cases hx) (by decide) rfl).1
  · exact (c3_probe_first_hit fxAppProbeOk fxReqProbe (by decide) (by decide) (by decide)
      (by decide) rfl rfl).2.2 [] ".tsx" [".jsx", ".ts", ".js", ".mjs", ""] _
      rfl (by intro x hx; cases hx) (by decide) rfl

/-! ## Claim C5 -/

/-- C5: in dev mode for an HMR-eligible module with server-only hooks,
the served code is the server-stripped text, run through the "hmr"
code-injection transforms in order, wrapped in the hot-context template;
the stripped variant is memoized on the module record on first use, and
a second request without recompilation reuses it, returning the identical
derived text and leaving the state fixed. -/
theorem c5_variant_pipeline_memoized (app : App) (req : Req) (m : Module) (content : String)
    (hA : strStartsWith req.pathname "/_aleph/" = true)
    (hData : (strStartsWith req.pathname "/_aleph/data/" && strEndsWith req.pathname ".json")
      = false)
    (hMain : ¬ trimPrefixStr req.pathname "/_aleph" = "/main.js")
    (hJs : strEndsWith (trimPrefixStr req.pathname "/_aleph") ".js" = true)
    (hFind : app.modules.find? (fun x => x.jsFile == trimPrefixStr req.pathname "/_aleph")
      = some m)
    (hJS : app.getModuleJS m = some content)
    (hNoMatch : ¬ req.ifNoneMatch = some (app.md5Hex (app.version ++ hashOrSource m)))
    (hDevHmr : (app.isDev && app.isHMRable m.specifier) = true)
    (hHooks : hasServerHooks m = true)
    (hFresh : m.csrCode = none)
    (hJS2 : app.getModuleJS ({ m with csrCode := some (app.stripSsr m.specifier content) })
      = some content) :
    (handle app req).1.body
      = hotWrap m.specifier (applyInjects (app.hmrInjects m.specifier) m.specifier
          (app.stripSsr m.specifier content))
    ∧ (handle app req).2
      = { app with modules := replaceModule app.modules ({ m with csrCode := some (app.stripSsr m.specifier content) }) }
    ∧ handle ((handle app req).2) req = ((handle app req).1, (handle app req).2) := by
  have hrun1 := handle_module app req m hA hData hMain hJs hFind
  rw [serveModuleJS_hmr_fresh app (baseHeaders app) req.ifNoneMatch m content hJS hNoMatch
    hDevHmr hHooks hFresh] at hrun1
  have hFind2 := find?_replaceModule app.modules m (trimPrefixStr req.pathname "/_aleph")
    (app.stripSsr m.specifier content) hFind
  have hrun2 := handle_module
    ({ app with modules := replaceModule app.modules ({ m with csrCode := some (app.stripSsr m.specifier content) }) })
    req ({ m with csrCode := some (app.stripSsr m.specifier content) })
    hA hData hMain hJs hFind2
  rw [serveModuleJS_hmr_memo
    ({ app with modules := replaceModule app.modules ({ m with csrCode := some (app.stripSsr m.specifier content) }) })
    (baseHeaders ({ app with modules := replaceModule app.modules ({ m with csrCode := some (app.stripSsr m.specifier content) }) }))
    req.ifNoneMatch ({ m with csrCode := some (app.stripSsr m.specifier content) })
    content (app.stripSsr m.specifier content) hJS2 hNoMatch hDevHmr hHooks rfl] at hrun2
  refine ⟨?_, ?_, ?_⟩
  · rw [hrun1]
  · rw [hrun1]
  · rw [hrun1]
    exact hrun2

/-- A fixture module with server-only hooks and no memoized variant. -/
def fxModuleHooks : Module := { fxModule with ssrPropsFn := true }

/-- A fixture whose module has server-only hooks, with a stripping
function and one registered "hmr" inject that leave visible traces. -/
def fxAppHooks : App :=
  { fxApp with
    modules := [fxModuleHooks],
    stripSsr := fun _ c => "stripped:" ++ c,
    hmrInjects := fun _ => [fun _ c => c ++ ":injected"] }

/-- Witness for C5 at a concrete state. -/
theorem c5_witness :
    (handle fxAppHooks fxReq).1.body
      = hotWrap fxModuleHooks.specifier
          (applyInjects (fxAppHooks.hmrInjects fxModuleHooks.specifier)
            fxModuleHooks.specifier
            (fxAppHooks.stripSsr fxModuleHooks.specifier "console.log(1);"))
    ∧ (handle fxAppHooks fxReq).2
      = { fxAppHooks with modules := replaceModule fxAppHooks.modules ({ fxModuleHooks with csrCode := some (fxAppHooks.stripSsr fxModuleHooks.specifier "console.log(1);") }) }
    ∧ handle ((handle fxAppHooks fxReq).2) fxReq
      = ((handle fxAppHooks fxReq).1, (handle fxAppHooks fxReq).2) :=
  c5_variant_pipeline_memoized fxAppHooks fxReq fxModuleHooks "console.log(1);"
    (by decide) (by decide) (by decide) (by decide) (by decide) rfl (by decide) rfl rfl rfl rfl

/-! ## Claims C8 and C9: public files and the API branch -/

lemma handle_public (app : App) (req : Req) (r : Response)
    (hHmr : ¬ req.pathname = "/_hmr")
    (hA : strStartsWith req.pathname "/_aleph/" = false)
    (hPub : servePublic app (baseHeaders app) req.pathname req.ifModifiedSince = some r) :
    handle app req = (r, app) := by
  rw [handle_eq]
  unfold handleCore
  simp [hHmr, hA, hPub]

lemma serveAPI_route (app : App) (hdrs : List (String × String)) (pathname search : String)
    (params query modRef : String)
    (hRoute : app.getAPIRoute pathname search = some (params, query, modRef)) :
    serveAPI app hdrs pathname search =
      match app.importModule modRef with
      | .error err =>
        { status := 500, headers := hdrs, body := jsonEnvelope 500 err.message,
          contentType := some "application/json; charset=utf-8" }
      | .ok .notFn =>
        { status := 500, headers := hdrs, body := jsonEnvelope 500 "bad api handler",
          contentType := some "application/json; charset=utf-8" }
      | .ok (.fn h) =>
        match h params query with
        | .ok r => r
        | .error err =>
          { status := 500, headers := hdrs, body := jsonEnvelope 500 err.message,
            contentType := some "application/json; charset=utf-8" } := by
  unfold serveAPI
  rw [hRoute]

lemma serveAPI_fn (app : App) (hdrs : List (String × String)) (pathname search : String)
    (params query modRef : String) (h : String → String → Except Err Response)
    (hRoute : app.getAPIRoute pathname search = some (params, query, modRef))
    (hImp : app.importModule modRef = .ok (.fn h)) :
    serveAPI app hdrs pathname search =
      match h params query with
      | .ok r => r
      | .error err =>
        { status := 500, headers := hdrs, body := jsonEnvelope 500 err.message,
          contentType := some "application/json; charset=utf-8" } := by
  rw [serveAPI_route app hdrs pathname search params query modRef hRoute, hImp]

lemma handle_api (app : App) (req : Req)
    (hHmr : ¬ req.pathname = "/_hmr")
    (hA : strStartsWith req.pathname "/_aleph/" = false)
    (hPub : servePublic app (baseHeaders app) req.pathname req.ifModifiedSince = none)
    (hApi : strStartsWith req.pathname "/api/" = true) :
    handle app req = (serveAPI app (baseHeaders app) req.pathname req.search, app) := by
  rw [handle_eq]
  unfold handleCore
  simp [hHmr, hA, hPub, hApi]

/-- C8: for a request resolving to an existing file under the public
root, the validator is the file's last-modified timestamp (falling back
to the current time when unavailable); an exactly matching
`If-Modified-Since` yields a 304 with empty body, anything else yields a
200 carrying the file body, the `Last-Modified` header and the MIME type
derived from the file's extension. -/
theorem c8_public_conditional (app : App) (req : Req)
    (hHmr : ¬ req.pathname = "/_hmr")
    (hA : strStartsWith req.pathname "/_aleph/" = false)
    (hEx : app.fsExists (pathJoin (pathJoin app.workingDir "public") req.pathname) = true) :
    (req.ifModifiedSince
        = some ((app.fileMtime (pathJoin (pathJoin app.workingDir "public") req.pathname)).getD
            app.now) →
      (handle app req).1
        = { status := 304, headers := baseHeaders app, body := "", contentType := none })
    ∧ (¬ req.ifModifiedSince
        = some ((app.fileMtime (pathJoin (pathJoin app.workingDir "public") req.pathname)).getD
            app.now) →
      (handle app req).1
        = { status := 200,
            headers := baseHeaders app
              ++ [("Last-Modified",
                  (app.fileMtime (pathJoin (pathJoin app.workingDir "public") req.pathname)).getD
                    app.now)],
            body := app.fileText (pathJoin (pathJoin app.workingDir "public") req.pathname),
            contentType := some (app.mime
              (fileExt (pathJoin (pathJoin app.workingDir "public") req.pathname))) }) := by
  constructor
  · intro hm
    have hPub : servePublic app (baseHeaders app) req.pathname req.ifModifiedSince
        = some { status := 304, headers := baseHeaders app, body := "", contentType := none }
      := by
      unfold servePublic
      simp [hEx, hm]
    rw [handle_public app req _ hHmr hA hPub]
  · intro hm
    have hPub : servePublic app (baseHeaders app) req.pathname req.ifModifiedSince
        = some
          { status := 200,
            headers := baseHeaders app
              ++ [("Last-Modified",
                  (app.fileMtime (pathJoin (pathJoin app.workingDir "public") req.pathname)).getD
                    app.now)],
            body := app.fileText (pathJoin (pathJoin app.workingDir "public") req.pathname),
            contentType := some (app.mime
              (fileExt (pathJoin (pathJoin app.workingDir "public") req.pathname))) } := by
      unfold servePublic getContentType
      simp [hEx, hm]
    rw [handle_public app req _ hHmr hA hPub]

/-- A fixture with one public file on disk. -/
def fxAppPub : App :=
  { fxApp with
    fsExists := fun p => p == "/w/public/logo.png",
    fileMtime := fun _ => some "Tue, 02 Jan 2024 00:00:00 GMT",
    fileText := fun _ => "PNGDATA" }

/-- The request for the public fixture file. -/
def fxReqPub : Req :=
  { pathname := "/logo.png", search := "", ifNoneMatch := none, ifModifiedSince := none }

/-- Witness for C8 at a concrete state: both the 304 and the 200 arms. -/
theorem c8_witness :
    ((handle fxAppPub
        ({ fxReqPub with ifModifiedSince := some "Tue, 02 Jan 2024 00:00:00 GMT" })).1
      = { status := 304, headers := baseHeaders fxAppPub, body := "", contentType := none })
    ∧ (handle fxAppPub fxReqPub).1
      = { status := 200,
          headers := baseHeaders fxAppPub
            ++ [("Last-Modified", "Tue, 02 Jan 2024 00:00:00 GMT")],
          body := "PNGDATA", contentType := some (fxAppPub.mime "png") } := by
  constructor
  · exact (c8_public_conditional fxAppPub
      ({ fxReqPub with ifModifiedSince := some "Tue, 02 Jan 2024 00:00:00 GMT" })
      (by decide) (by decide) (by decide)).1 rfl
  · exact (c8_public_conditional fxAppPub fxReqPub (by decide) (by decide) (by decide)).2
      (by decide)

/-- C9: under `/api/`, an unmatched route yields a 404 JSON envelope
(literally `{"status":404,"message":"not found"}`); a matched route whose
default export is not a function yields a 500 "bad api handler" envelope;
a handler that throws yields a 500 envelope carrying the error's message,
with the application state unchanged — the dispatcher returns normally
and keeps serving. -/
theorem c9_api_errors (app : App) (req : Req)
    (hHmr : ¬ req.pathname = "/_hmr")
    (hA : strStartsWith req.pathname "/_aleph/" = false)
    (hPub : app.fsExists (pathJoin (pathJoin app.workingDir "public") req.pathname) = false)
    (hApi : strStartsWith req.pathname "/api/" = true) :
    (app.getAPIRoute req.pathname req.search = none →
      (handle app req).1
        = { status := 404, headers := baseHeaders app, body := jsonEnvelope 404 "not found",
            contentType := some "application/json; charset=utf-8" }
      ∧ (handle app req).2 = app)
    ∧ jsonEnvelope 404 "not found" = "\x7b\"status\":404,\"message\":\"not found\"\x7d"
    ∧ (∀ params query modRef, app.getAPIRoute req.pathname req.search
          = some (params, query, modRef) →
      app.importModule modRef = .ok .notFn →
      (handle app req).1
        = { status := 500, headers := baseHeaders app,
            body := jsonEnvelope 500 "bad api handler",
            contentType := some "application/json; charset=utf-8" }
      ∧ (handle app req).2 = app)
    ∧ (∀ params query modRef h err, app.getAPIRoute req.pathname req.search
          = some (params, query, modRef) →
      app.importModule modRef = .ok (.fn h) →
      h params query = .error err →
      (handle app req).1
        = { status := 500, headers := baseHeaders app, body := jsonEnvelope 500 err.message,
            contentType := some "application/json; charset=utf-8" }
      ∧ (handle app req).2 = app) := by
  have hP : servePublic app (baseHeaders app) req.pathname req.ifModifiedSince = none := by
    unfold servePublic
    simp [hPub]
  refine ⟨?_, rfl, ?_, ?_⟩
  · intro hRoute
    rw [handle_api app req hHmr hA hP hApi]
    unfold serveAPI
    rw [hRoute]
    exact ⟨rfl, rfl⟩
  · intro params query modRef hRoute hImp
    rw [handle_api app req hHmr hA hP hApi,
      serveAPI_route app (baseHeaders app) req.pathname req.search params query modRef hRoute,
      hImp]
    exact ⟨rfl, rfl⟩
  · intro params query modRef h err hRoute hImp hThrow
    rw [handle_api app req hHmr hA hP hApi,
      serveAPI_fn app (baseHeaders app) req.pathname req.search params query modRef h
        hRoute hImp,
      hThrow]
    exact ⟨rfl, rfl⟩

/-- A fixture whose API route table matches `/api/boom` with a throwing
handler and `/api/bad` with a non-function export. -/
def fxAppApi : App :=
  { fxApp with
    getAPIRoute := fun p _ =>
      if p == "/api/boom" then some ("params", "query", "modBoom")
      else if p == "/api/bad" then some ("params", "query", "modBad")
      else none,
    importModule := fun r =>
      if r == "modBoom" then .ok (.fn (fun _ _ => .error ⟨"boom", "stack"⟩))
      else .ok .notFn }

/-- The unmatched API request. -/
def fxReqApiMiss : Req :=
  { pathname := "/api/none", search := "", ifNoneMatch := none, ifModifiedSince := none }

/-- The bad-handler API request. -/
def fxReqApiBad : Req :=
  { pathname := "/api/bad", search := "", ifNoneMatch := none, ifModifiedSince := none }

/-- The throwing-handler API request. -/
def fxReqApiBoom : Req :=
  { pathname := "/api/boom", search := "", ifNoneMatch := none, ifModifiedSince := none }

/-- Witness for C9 at concrete states exercising all three outcomes. -/
theorem c9_witness :
    ((handle fxAppApi fxReqApiMiss).1
      = { status := 404, headers := baseHeaders fxAppApi,
          body := jsonEnvelope 404 "not found",
          contentType := some "application/json; charset=utf-8" })
    ∧ jsonEnvelope 404 "not found" = "\x7b\"status\":404,\"message\":\"not found\"\x7d"
    ∧ ((handle fxAppApi fxReqApiBad).1
      = { status := 500, headers := baseHeaders fxAppApi,
          body := jsonEnvelope 500 "bad api handler",
          contentType := some "application/json; charset=utf-8" })
    ∧ ((handle fxAppApi fxReqApiBoom).1
      = { status := 500, headers := baseHeaders fxAppApi,
          body := jsonEnvelope 500 "boom",
          contentType := some "application/json; charset=utf-8" })
    ∧ (handle fxAppApi fxReqApiBoom).2 = fxAppApi := by
  refine ⟨?_, rfl, ?_, ?_, ?_⟩
  · exact ((c9_api_errors fxAppApi fxReqApiMiss (by decide) (by decide) rfl (by decide)).1
      rfl).1
  · exact ((c9_api_errors fxAppApi fxReqApiBad (by decide) (by decide) rfl (by decide)).2.2.1
      "params" "query" "modBad" rfl rfl).1
  · exact ((c9_api_errors fxAppApi fxReqApiBoom (by decide) (by decide) rfl (by decide)).2.2.2
      "params" "query" "modBoom" (fun _ _ => .error ⟨"boom", "stack"⟩) ⟨"boom", "stack"⟩
      rfl rfl rfl).1
  · exact ((c9_api_errors fxAppApi fxReqApiBoom (by decide) (by decide) rfl (by decide)).2.2.2
      "params" "query" "modBoom" (fun _ _ => .error ⟨"boom", "stack"⟩) ⟨"boom", "stack"⟩
      rfl rfl rfl).2

end Aleph
